import Mathlib

/-!
# A shallow embedding of the PostgresStore tile storage engine

This file embeds the `PostgresStore` module (src/unnamed/part_000) in Lean 4
and proves properties of the embedded operations.

The backing Postgres table `(zoom smallint, idx bigint, tile bytea)` is
modelled as a list of rows in insertion order (`Table`); the SQL statements
issued by the store (`getTile`, `set`, `delete`, and the range scan built by
`query`) are given their semantics over that list.  JavaScript numbers that
may be fractional (`Math.pow(4, zoom)` for negative zoom) are modelled as
rationals; machine-level byte blobs are lists of naturals.  Fallible
operations return `Except Err _`, mirroring the promise rejections of the
source; `attachUri` (src lines 26-29) only annotates an in-flight error with
the sanitized `_params` and rethrows it, so error identity is preserved by
the embedding.
-/

set_option linter.unusedVariables false

namespace PostgresStore

/-- A byte blob (`bytea` column / node `Buffer`), as a list of byte values. -/
abbrev Bytes := List Nat

/-- One row of the backing table: `(zoom smallint, idx bigint, tile bytea)`
(src lines 70, 78). -/
structure Row where
  zoom : Int
  idx : Int
  tile : Bytes
deriving DecidableEq, Repr

/-- The backing table, rows kept in their physical order. -/
abbrev Table := List Row

/-- The primary-key predicate `zoom = $2 AND idx = $3` used by every point
statement (src lines 89-94). -/
def matchKey (z i : Int) (r : Row) : Bool :=
  r.zoom == z && r.idx == i

/-- Semantics of `SELECT tile FROM $1~ WHERE zoom = $2 AND idx = $3;`
(src line 89) returning at most one row (`oneOrNone`, src line 220). -/
def findRow (t : Table) (z i : Int) : Option Row :=
  t.find? (matchKey z i)

/-- Semantics of the `set` statement (src lines 91-93): an `UPDATE` of every
row matching the key, followed by an `INSERT ... WHERE NOT EXISTS` on the
same key.  The update rewrites the `tile` column in place; the insert appends
a fresh row only when no row with the key exists. -/
def setRow (t : Table) (z i : Int) (d : Bytes) : Table :=
  let updated := t.map (fun r => if matchKey z i r then { r with tile := d } else r)
  if updated.any (matchKey z i) then updated else updated ++ [⟨z, i, d⟩]

/-- Semantics of `DELETE FROM $1~ WHERE zoom = $2 AND idx = $3;` (src line 94). -/
def deleteRow (t : Table) (z i : Int) : Table :=
  t.filter (fun r => !(matchKey z i r))

/-- A buffered write statement: the `{query, params}` objects pushed onto
`self.batch` by `_storeDataAsync` (src lines 150-160). -/
inductive Query where
  | set (zoom idx : Int) (tile : Bytes)
  | delete (zoom idx : Int)
deriving DecidableEq, Repr

/-- Executing one write statement against the table. -/
def execQuery (t : Table) : Query → Table
  | Query.set z i d => setRow t z i d
  | Query.delete z i => deleteRow t z i

/-- The store configuration retained after construction.  `uri` is the raw
constructor argument captured by the `throwError` closure (src lines 17-24);
`maxBatchSize = 0` models an absent / falsy `maxBatchSize` (src line 157).
`password` was deleted from `_params` before any use (src line 62), so it
does not appear here. -/
structure Params where
  uri : String
  tableName : String
  minzoom : Int
  maxzoom : Int
  maxBatchSize : Nat
deriving DecidableEq, Repr

/-- The mutable instance state of a `PostgresStore`: the nesting counter
`batchMode`, the pending sequence `batch` (src lines 19-20), and the backing
table reached through the connection handle. -/
structure StoreState where
  params : Params
  batchMode : Nat
  batch : List Query
  db : Table
deriving DecidableEq, Repr

/-- The error taxonomy of the store.  `noTile` is `core.throwNoTile()`
(src lines 105, 110); the string-carrying constructors are errors built by
`this.throwError` (src lines 22-24); `storageFault` stands for a rejection
coming back from the database client. -/
inductive Err where
  | noTile
  | configError (msg : String)
  | protocolError (msg : String)
  | validationError (msg : String)
  | storageFault
deriving DecidableEq, Repr

/-- The message built by `this.throwError` (src lines 22-24): the formatted
message with `JSON.stringify(uri)` of the RAW constructor uri appended.  For
a connection-string uri, `JSON.stringify` wraps the string in quotes. -/
def throwErrorMsg (uri msg : String) : String :=
  msg ++ "\"" ++ uri ++ "\""

/-- The prepared statements of the store, keyed by name, exactly as assigned
to `self.queries` (src lines 88-95). -/
def queries : List (String × String) :=
  [("getTile", "SELECT tile FROM $1~ WHERE zoom = $2 AND idx = $3;"),
   ("getTileSize", "SELECT length(tile) AS len FROM $1~ WHERE zoom = $2 AND idx = $3;"),
   ("set", "UPDATE $1~ SET tile=$4 WHERE zoom = $2 AND idx = $3;INSERT INTO $1~ (zoom, idx, tile) SELECT $2, $3, $4 WHERE NOT EXISTS (SELECT 1 FROM $1~ WHERE zoom = $2 AND idx = $3);"),
   ("delete", "DELETE FROM $1~ WHERE zoom = $2 AND idx = $3;")]

/-- JavaScript property lookup `self.queries.<k>`: `none` models the
`undefined` obtained when the key is not defined on the object. -/
def queriesLookup (k : String) : Option String :=
  (queries.find? (fun q => q.1 == k)).map (fun q => q.2)

/-- JavaScript `Math.pow(4, z)` for an integer `z`, as an exact rational
(fractional for negative `z`). -/
def jsPow4 (z : Int) : ℚ :=
  if 0 ≤ z then ((4 ^ z.toNat : ℤ) : ℚ) else (((4 ^ (-z).toNat : ℤ) : ℚ))⁻¹

/-- The fixed response headers (src lines 32-35). -/
structure Headers where
  contentType : String
  contentEncoding : String
deriving DecidableEq, Repr

/-- `self.headers` (src lines 32-35). -/
def headers : Headers :=
  { contentType := "application/x-protobuf", contentEncoding := "gzip" }

/-- The options object accepted by `queryTileAsync` (src lines 198-231).
`none` in the `Option Bool` fields models an `undefined` property
(src lines 217-218). -/
structure QueryTileOptions where
  info : Bool := false
  zoom : Int := 0
  idx : Int := 0
  getWriteTime : Bool := false
  getTile : Option Bool := none
  getSize : Option Bool := none

/-- The response object assembled by `queryTileAsync` (src lines 222-226). -/
structure TileResp where
  tile : Option Bytes := none
  size : Option Nat := none
deriving DecidableEq, Repr

/-- `PostgresStore.prototype.queryTileAsync` (src lines 198-231).  The `info`
branch redirects to the reserved address `(-1, 0)` and skips validation;
otherwise `0 <= idx < Math.pow(4, zoom)` is checked.  The statement to run is
looked up as `self.queries.getTile` or `self.queries.getSize` (src line 219);
a missing key yields `undefined` and the database client rejects the call
(`storageFault`).  A found row is turned into a response object carrying the
blob and/or its byte length. -/
def queryTileAsync (uri : String) (db : Table) (o : QueryTileOptions) :
    Except Err (Option TileResp) :=
  let zi : Except Err (Int × Int) :=
    if o.info then Except.ok (-1, 0)
    else if o.idx < 0 ∨ ((o.idx : ℚ) ≥ jsPow4 o.zoom) then
      Except.error (Err.validationError
        (throwErrorMsg uri "Options must satisfy: 0 <= idx < maxEnd"))
    else Except.ok (o.zoom, o.idx)
  match zi with
  | Except.error e => Except.error e
  | Except.ok (zoom, idx) =>
    if o.getWriteTime then
      Except.error (Err.validationError
        (throwErrorMsg uri "getWriteTime is not implemented by Postgres source"))
    else
      let getT := o.getTile.getD true
      let getS := o.getSize.getD false
      match (if getT then queriesLookup "getTile" else queriesLookup "getSize") with
      | none => Except.error Err.storageFault
      | some _ =>
        match findRow db zoom idx with
        | some row =>
          Except.ok (some { tile := if getT then some row.tile else none,
                            size := if getS then some row.tile.length else none })
        | none => Except.ok none

/-- `core.xyToIndex(x, y, zoom)`.

Modelled from the spec: the quadtree coordinate-to-index encoder lives in the
external `core` collaborator and is not under src/; spec sections 4.1 and the
glossary describe it as a deterministic, invertible linear quadtree
addressing of `(x, y)` within zoom `z`, with range `[0, 4^z)`.  It is
embedded as the standard Z-order bit interleaving. -/
def xyToIndex : Nat → Nat → Nat → Nat
  | _, _, 0 => 0
  | x, y, Nat.succ z => (x % 2) + 2 * (y % 2) + 4 * xyToIndex (x / 2) (y / 2) z

/-- `PostgresStore.prototype.getTile` (src lines 101-114): out-of-window
zooms short-circuit to `throwNoTile` before any I/O; otherwise the point read
runs and an absent row also yields `throwNoTile`; a found row returns
`[row.tile, self.headers]`. -/
def getTile (s : StoreState) (z : Int) (x y : Nat) : Except Err (Bytes × Headers) :=
  if z < s.params.minzoom ∨ z > s.params.maxzoom then Except.error Err.noTile
  else
    match queryTileAsync s.params.uri s.db
        { zoom := z, idx := (xyToIndex x y z.toNat : Int) } with
    | Except.error e => Except.error e
    | Except.ok none => Except.error Err.noTile
    | Except.ok (some resp) => Except.ok (resp.tile.getD [], headers)

/-- The truthiness test `data && data.length > 0` of `_storeDataAsync`
(src line 150); `none` models an absent (`null`/`undefined`) payload. -/
def dataNonEmpty : Option Bytes → Bool
  | some d => d.length > 0
  | none => false

/-- The statement chosen by `_storeDataAsync` for a payload (src lines
150-156): non-empty data routes to `set`, empty or absent data to `delete`. -/
def entryQuery (zoom idx : Int) (d : Option Bytes) : Query :=
  if dataNonEmpty d then Query.set zoom idx (d.getD []) else Query.delete zoom idx

/-- `PostgresStore.prototype.flush` (src lines 173-184), with the grouped
submission's outcome supplied as `submitOk`.  An empty pending sequence is a
no-op; otherwise the sequence is detached (`self.batch = []`) and submitted
as one group: on success every detached statement is applied in order, on
failure the rejection propagates and the detached entries are not restored. -/
def flushR (s : StoreState) (submitOk : Bool) : Except Err Unit × StoreState :=
  if s.batch.length > 0 then
    let detached := s.batch
    let s1 := { s with batch := [] }
    if submitOk then (Except.ok (), { s1 with db := detached.foldl execQuery s1.db })
    else (Except.error Err.storageFault, s1)
  else (Except.ok (), s)

/-- The outcome of `_storeDataAsync`: the promise result, the new instance
state, and whether the size-triggered flush branch (src line 162) ran. -/
structure StoreResult where
  result : Except Err Unit
  state : StoreState
  flushed : Bool
deriving Repr

/-- `PostgresStore.prototype._storeDataAsync` (src lines 146-166).  In direct
mode (`!self.batchMode || !self._params.maxBatchSize`) the statement runs
immediately; otherwise it is appended to the pending sequence, and when the
new length exceeds `maxBatchSize` the store flushes before returning. -/
def storeData (s : StoreState) (zoom idx : Int) (d : Option Bytes) (submitOk : Bool) :
    StoreResult :=
  let q := entryQuery zoom idx d
  if s.batchMode = 0 ∨ s.params.maxBatchSize = 0 then
    { result := Except.ok (), state := { s with db := execQuery s.db q }, flushed := false }
  else
    let s1 := { s with batch := s.batch ++ [q] }
    if s1.batch.length > s.params.maxBatchSize then
      let r := flushR s1 submitOk
      { result := r.1, state := r.2, flushed := true }
    else
      { result := Except.ok (), state := s1, flushed := false }

/-- `PostgresStore.prototype.putTile` (src lines 138-144): a zoom outside the
configured window fails through `this.throwError` (a configuration error
carrying the stringified raw uri); otherwise the payload is stored at the
quadtree index. -/
def putTile (s : StoreState) (z : Int) (x y : Nat) (d : Option Bytes) : StoreResult :=
  if z < s.params.minzoom ∨ z > s.params.maxzoom then
    { result := Except.error (Err.configError (throwErrorMsg s.params.uri
        ("This PostgresStore source cannot save zoom " ++ toString z ++
         ", because its configured for zooms " ++ toString s.params.minzoom ++
         ".." ++ toString s.params.maxzoom))),
      state := s, flushed := false }
  else storeData s z (xyToIndex x y z.toNat : Int) d true

/-- `PostgresStore.prototype.startWriting` (src lines 168-171). -/
def startWriting (s : StoreState) : StoreState :=
  { s with batchMode := s.batchMode + 1 }

/-- `PostgresStore.prototype.stopWriting` (src lines 186-196): a zero counter
fails through `this.throwError`; otherwise the counter is decremented and
`flushAsync()` is called unconditionally. -/
def stopWriting (s : StoreState) (submitOk : Bool) : Except Err Unit × StoreState :=
  if s.batchMode = 0 then
    (Except.error (Err.protocolError (throwErrorMsg s.params.uri
       "stopWriting() called more times than startWriting()")), s)
  else flushR { s with batchMode := s.batchMode - 1 } submitOk

/-- The options object accepted by `query` (src lines 246-263).  The date
filters (`dateFrom`/`dateBefore`) are recognized and rejected by the source
(src lines 296-298) and are exercised by no claim, so they are left out of
the embedding. -/
structure QueryOptions where
  zoom : Int
  idxFrom : Option Int := none
  idxBefore : Option Int := none
  biggerThan : Option Int := none
  smallerThan : Option Int := none
  getTiles : Bool := false

/-- One record of the lazy sequence returned by `query`, as assembled by the
converter at src lines 302-310. -/
structure QueryResult where
  zoom : Int
  idx : Int
  tile : Option Bytes := none
  headers : Option Headers := none
deriving DecidableEq, Repr

/-- The validation `(typeof smallerThan !== 'undefined' && ...) ||
options.smallerThan <= 0` (src lines 262-263): an absent value passes, a
present value must be positive. -/
def smallerThanBad : Option Int → Bool
  | some v => v ≤ 0
  | none => false

/-- The WHERE clause assembled by `query` (src lines 274-295), as a row
predicate: `zoom = $2` always; `length(tile) < smallerThan` when supplied
(validation has already forced it positive, hence truthy); `length(tile) >=
biggerThan` when truthy; `idx >= start` only when `start > 0`; `idx < end`
only when `end < maxEnd`.  No ORDER BY is issued (src line 313). -/
def rangeCond (zoom : Int) (sT bT : Option Int) (start endv maxEnd : ℚ) (r : Row) : Bool :=
  r.zoom == zoom
  && (match sT with
      | some v => decide ((r.tile.length : Int) < v)
      | none => true)
  && (match bT with
      | some v => if v = 0 then true else decide ((r.tile.length : Int) ≥ v)
      | none => true)
  && (if start > 0 then decide ((r.idx : ℚ) ≥ start) else true)
  && (if endv < maxEnd then decide ((r.idx : ℚ) < endv) else true)

/-- The validation and SQL construction of `PostgresStore.prototype.query`
(src lines 246-313), returning the rows the range scan produces, in the
backing table's physical order (the statement carries no ORDER BY).
`start = options.idxFrom || 0` and `end = options.idxBefore || maxEnd`
follow JavaScript truthiness: a supplied `0` counts as absent. -/
def queryRows (uri : String) (o : QueryOptions) (db : Table) : Except Err Table :=
  if smallerThanBad o.smallerThan then
    Except.error (Err.validationError (throwErrorMsg uri
      "Options may contain a smallerThan numeric parameter that is bigger than 0"))
  else
    let maxEnd := jsPow4 o.zoom
    let start : ℚ := match o.idxFrom with
      | some v => (v : ℚ)
      | none => 0
    let endv : ℚ := match o.idxBefore with
      | some v => if v = 0 then maxEnd else (v : ℚ)
      | none => maxEnd
    if start > endv ∨ endv > maxEnd then
      Except.error (Err.validationError (throwErrorMsg uri
        "Options must satisfy: idxFrom <= idxBefore <= maxEnd"))
    else
      Except.ok (db.filter (rangeCond o.zoom o.smallerThan o.biggerThan start endv maxEnd))

/-- A raw row pushed by the server-side cursor (`value` at src line 301):
its `idx` column and, when `getTiles` requested it, its `tile` column. -/
structure StreamValue where
  idx : Int
  tile : Bytes
deriving DecidableEq, Repr

/-- The promistreamus converter installed by `query` (src lines 301-311):
every pushed row becomes `{zoom, idx}` plus, when `getTiles` is set, the
tile blob and the fixed headers. -/
def converter (o : QueryOptions) (v : StreamValue) : QueryResult :=
  { zoom := o.zoom, idx := v.idx,
    tile := if o.getTiles then some v.tile else none,
    headers := if o.getTiles then some headers else none }

/-- The full record sequence a `query` call delivers when the cursor runs to
completion: the filtered rows, in table order, through the converter. -/
def queryResults (uri : String) (o : QueryOptions) (db : Table) :
    Except Err (List QueryResult) :=
  (queryRows uri o db).map (fun rows => rows.map (fun r => converter o ⟨r.idx, r.tile⟩))

/-- One event of the underlying server-side cursor feeding the adapter. -/
inductive StreamEvent where
  | item (v : StreamValue)
  | fault (e : String)
  | finished
deriving Repr

/-- Modelled from the spec: the Streaming Cursor Adapter (`promistreamus`),
which `query` consumes (src lines 301-324) but whose implementation is not
under src/.  Spec section 4.5: each `next()` call resolves to exactly one
transformed record or an end-of-sequence marker; an underlying stream fault
is captured and delivered as the rejection of the next `next()` call, never
raised outside that pull protocol; records already delivered are not
retracted or re-delivered.  `nextResults` is the sequence of successive
`next()` outcomes for a given cursor event sequence: `ok (some record)` per
delivered row, `ok none` for the end marker, `error e` for the rejection
delivering a fault; nothing is pulled past a terminal event. -/
def nextResults (o : QueryOptions) : List StreamEvent → List (Except String (Option QueryResult))
  | [] => []
  | StreamEvent.item v :: rest => Except.ok (some (converter o v)) :: nextResults o rest
  | StreamEvent.fault e :: _ => [Except.error e]
  | StreamEvent.finished :: _ => [Except.ok none]

/-- An entry submitted through `_storeDataAsync` while buffering. -/
structure Entry where
  zoom : Int
  idx : Int
  data : Option Bytes
deriving Repr

/-- Submitting a sequence of entries one after the other (each one a
`_storeDataAsync` call with a successfully-submitting client), returning the
final state and the per-submission flush flags in order. -/
def submitSeq (s : StoreState) : List Entry → StoreState × List Bool
  | [] => (s, [])
  | e :: rest =>
    let r := storeData s e.zoom e.idx e.data true
    let t := submitSeq r.state rest
    (t.1, r.flushed :: t.2)

/-- Substring test used to state the credential-leak property: whether
`pat` occurs contiguously inside `s`. -/
def strContains (s pat : String) : Bool :=
  decide (pat.data <:+: s.data)

/-- Decidable equality of `Except` results, so that concrete runs of the
embedded operations can be checked by `decide`. -/
instance exceptDecEq {ε α : Type _} [DecidableEq ε] [DecidableEq α] :
    DecidableEq (Except ε α) := fun x y =>
  match x, y with
  | Except.ok a, Except.ok b =>
    if h : a = b then isTrue (by rw [h]) else isFalse (fun he => by cases he; exact h rfl)
  | Except.ok _, Except.error _ => isFalse (fun h => by cases h)
  | Except.error _, Except.ok _ => isFalse (fun h => by cases h)
  | Except.error e, Except.error f =>
    if h : e = f then isTrue (by rw [h]) else isFalse (fun he => by cases he; exact h rfl)

/-! ## Concrete fixtures used by counterexamples and witnesses -/

/-- A direct-mode store built from a connection-string uri that carries a
password in its query string: the raw string is what the `throwError`
closure retains (src lines 17, 22-24), while the parsed `_params` copy had
its `password` deleted (src line 62). -/
def leakStore : StoreState :=
  { params := { uri := "postgres://u@h/d?database=db1&password=secret",
                tableName := "tiles", minzoom := 0, maxzoom := 14, maxBatchSize := 0 },
    batchMode := 0, batch := [], db := [] }

/-- A store two `startWriting` levels deep with one pending buffered write. -/
def nestedStore : StoreState :=
  { params := { uri := "u", tableName := "tiles", minzoom := 0, maxzoom := 14,
                maxBatchSize := 5 },
    batchMode := 2, batch := [Query.set 0 0 [1]], db := [] }

/-- A table holding two zoom-3 rows stored in descending idx order. -/
def unorderedDb : Table :=
  [⟨3, 15, [1]⟩, ⟨3, 12, [2]⟩]

/-- `query` options asking zoom 3 for the idx window `[10, 20)`. -/
def rangeOpts : QueryOptions :=
  { zoom := 3, idxFrom := some 10, idxBefore := some 20 }

/-- `query` options asking zoom 3 for the empty idx window `[0, 0)`. -/
def emptyRangeOpts : QueryOptions :=
  { zoom := 3, idxFrom := some 0, idxBefore := some 0 }

/-- The reference predicate for the amended range claim: a row of zoom `Z`
whose idx lies in `[a, b)`. -/
def inRange (Z a b : Int) (r : Row) : Bool :=
  r.zoom == Z && decide (a ≤ r.idx) && decide (r.idx < b)

/-- A table holding one two-byte tile at `(0, 0)`. -/
def sizeDb : Table :=
  [⟨0, 0, [9, 9]⟩]

/-- A size-only point read: `getTile` disabled, `getSize` enabled. -/
def sizeOnlyOpts : QueryTileOptions :=
  { zoom := 0, idx := 0, getTile := some false, getSize := some true }

/-- A plain direct-mode store with an empty table, zoom window `[0, 14]`. -/
def plainStore : StoreState :=
  { params := { uri := "u", tableName := "tiles", minzoom := 0, maxzoom := 14,
                maxBatchSize := 0 },
    batchMode := 0, batch := [], db := [] }

/-- A buffering-mode store (`batchMode = 1`) with `maxBatchSize = 2` and an
empty pending sequence. -/
def batchStore : StoreState :=
  { params := { uri := "u", tableName := "tiles", minzoom := 0, maxzoom := 14,
                maxBatchSize := 2 },
    batchMode := 1, batch := [], db := [] }

/-- A one-level buffering store with one pending delete, whose table holds
the row that delete targets. -/
def failStore : StoreState :=
  { params := { uri := "u", tableName := "tiles", minzoom := 0, maxzoom := 14,
                maxBatchSize := 3 },
    batchMode := 1, batch := [Query.delete 2 5], db := [⟨2, 5, [4]⟩] }

/-! ## Helper lemmas -/

/-- The quadtree address of an in-range coordinate lies in `[0, 4^z)`. -/
theorem xyToIndex_lt : ∀ (z x y : Nat), x < 2 ^ z → y < 2 ^ z → xyToIndex x y z < 4 ^ z
  | 0, _, _, _, _ => by simp [xyToIndex]
  | z + 1, x, y, hx, hy => by
    have h2 : (2 : ℕ) ^ (z + 1) = 2 * 2 ^ z := by ring
    have h4 : (4 : ℕ) ^ (z + 1) = 4 * 4 ^ z := by ring
    rw [h2] at hx hy
    have ih := xyToIndex_lt z (x / 2) (y / 2) (by omega) (by omega)
    simp only [xyToIndex]
    omega

/-- If some element of `l` satisfies `p` and every satisfying element equals
`v`, then `find?` returns `v`. -/
theorem find?_all_eq {α : Type _} {p : α → Bool} {v : α} (l : List α)
    (h : l.any p = true) (hall : ∀ r ∈ l, p r = true → r = v) :
    l.find? p = some v := by
  induction l with
  | nil => simp at h
  | cons r t ih =>
    by_cases hp : p r = true
    · rw [List.find?_cons_of_pos _ hp, hall r (by simp) hp]
    · rw [List.find?_cons_of_neg _ hp]
      apply ih
      · simp only [List.any_cons, Bool.or_eq_true] at h
        exact h.resolve_left hp
      · exact fun r' hr' hpr' => hall r' (by simp [hr']) hpr'

/-- `find?` skips a first block in which nothing satisfies `p`. -/
theorem find?_append_of_none {α : Type _} {p : α → Bool} (l₁ l₂ : List α)
    (h : l₁.find? p = none) : (l₁ ++ l₂).find? p = l₂.find? p := by
  induction l₁ with
  | nil => simp
  | cons a t ih =>
    by_cases hp : p a = true
    · rw [List.find?_cons_of_pos _ hp] at h; cases h
    · rw [List.cons_append, List.find?_cons_of_neg _ hp]
      exact ih (by rwa [List.find?_cons_of_neg _ hp] at h)

/-- After the `set` statement, the point read at the written key returns the
freshly written row. -/
theorem findRow_setRow (t : Table) (z i : Int) (d : Bytes) :
    findRow (setRow t z i d) z i = some ⟨z, i, d⟩ := by
  unfold setRow findRow
  by_cases h : (t.map (fun r => if matchKey z i r then { r with tile := d } else r)).any
      (matchKey z i) = true
  · rw [if_pos h]
    apply find?_all_eq _ h
    intro r hr hpr
    rcases List.mem_map.mp hr with ⟨r₀, hr₀, rfl⟩
    by_cases h₀ : matchKey z i r₀ = true
    · obtain ⟨rz, ri, rt⟩ := r₀
      have hz : rz = z ∧ ri = i := by
        unfold matchKey at h₀
        simpa using h₀
      obtain ⟨rfl, rfl⟩ := hz
      rw [if_pos h₀]
    · rw [if_neg h₀] at hpr ⊢
      exact absurd hpr h₀
  · rw [if_neg h]
    rw [find?_append_of_none]
    · simp [List.find?, matchKey]
    · rw [List.find?_eq_none]
      intro x hx hpx
      exact h (List.any_eq_true.mpr ⟨x, hx, hpx⟩)

/-- After the `delete` statement, the point read at the deleted key finds
nothing. -/
theorem findRow_deleteRow (t : Table) (z i : Int) :
    findRow (deleteRow t z i) z i = none := by
  unfold findRow deleteRow
  rw [List.find?_eq_none]
  intro r hr hcontra
  have h2 := (List.mem_filter.mp hr).2
  rw [hcontra] at h2
  cases h2

/-- The statement lookup for the blob read succeeds. -/
theorem queriesLookup_getTile :
    queriesLookup "getTile" = some "SELECT tile FROM $1~ WHERE zoom = $2 AND idx = $3;" := by
  decide

/-- Evaluation of a validated blob point read: `queryTileAsync` with default
`getTile`/`getSize` reduces to the `findRow` lookup. -/
theorem queryTileAsync_point (uri : String) (db : Table) (z i : Int)
    (hi0 : 0 ≤ i) (hlt : (i : ℚ) < jsPow4 z) :
    queryTileAsync uri db { zoom := z, idx := i } =
      Except.ok ((findRow db z i).map (fun row => { tile := some row.tile })) := by
  have hneg : ¬ (i < 0 ∨ ((i : ℚ) ≥ jsPow4 z)) := by
    push_neg
    exact ⟨hi0, hlt⟩
  simp only [queryTileAsync, hneg, if_false, queriesLookup_getTile, Option.getD]
  cases h : findRow db z i <;> simp [h]

/-- The quadtree address of a valid coordinate passes the `idx < Math.pow(4,
zoom)` validation of `queryTileAsync`. -/
theorem idx_lt_jsPow4 (z : Int) (hz : 0 ≤ z) (x y : Nat)
    (hx : x < 2 ^ z.toNat) (hy : y < 2 ^ z.toNat) :
    ((xyToIndex x y z.toNat : Int) : ℚ) < jsPow4 z := by
  rw [jsPow4, if_pos hz]
  exact_mod_cast xyToIndex_lt z.toNat x y hx hy

/-- Evaluation of an in-window `getTile`: the result is determined by the
point read at the quadtree address. -/
theorem getTile_in_window (s : StoreState) (z : Int) (x y : Nat)
    (hmin : 0 ≤ s.params.minzoom)
    (hz1 : s.params.minzoom ≤ z) (hz2 : z ≤ s.params.maxzoom)
    (hx : x < 2 ^ z.toNat) (hy : y < 2 ^ z.toNat) :
    getTile s z x y =
      match findRow s.db z (xyToIndex x y z.toNat : Int) with
      | some row => Except.ok (row.tile, headers)
      | none => Except.error Err.noTile := by
  have hz0 : 0 ≤ z := le_trans hmin hz1
  unfold getTile
  rw [if_neg (by omega)]
  rw [queryTileAsync_point _ _ _ _ (Int.natCast_nonneg _) (idx_lt_jsPow4 z hz0 x y hx hy)]
  cases h : findRow s.db z (xyToIndex x y z.toNat : Int) <;> simp [h]

/-- Evaluation of an in-window `putTile` on a store in direct mode: the
chosen statement runs immediately against the table. -/
theorem putTile_in_window_direct (s : StoreState) (z : Int) (x y : Nat) (d : Option Bytes)
    (hz1 : s.params.minzoom ≤ z) (hz2 : z ≤ s.params.maxzoom) (hdirect : s.batchMode = 0) :
    putTile s z x y d =
      { result := Except.ok (),
        state := { s with db := execQuery s.db (entryQuery z (xyToIndex x y z.toNat : Int) d) },
        flushed := false } := by
  unfold putTile storeData
  rw [if_neg (by omega), if_pos (Or.inl hdirect)]

/-- A buffered submission strictly under the threshold only appends. -/
theorem storeData_buffered_append (s : StoreState) (zoom idx : Int) (d : Option Bytes)
    (hmode : s.batchMode ≠ 0) (hmax : s.params.maxBatchSize ≠ 0)
    (hlen : s.batch.length + 1 ≤ s.params.maxBatchSize) :
    storeData s zoom idx d true =
      { result := Except.ok (),
        state := { s with batch := s.batch ++ [entryQuery zoom idx d] },
        flushed := false } := by
  unfold storeData
  rw [if_neg (by tauto)]
  rw [if_neg (by simp; omega)]

/-- A buffered submission that crosses the threshold detaches and submits
the whole pending sequence, the new entry included. -/
theorem storeData_buffered_flush (s : StoreState) (zoom idx : Int) (d : Option Bytes)
    (hmode : s.batchMode ≠ 0) (hmax : s.params.maxBatchSize ≠ 0)
    (hlen : s.batch.length = s.params.maxBatchSize) :
    storeData s zoom idx d true =
      { result := Except.ok (),
        state := { s with
                   batch := []
                   db := (s.batch ++ [entryQuery zoom idx d]).foldl execQuery s.db },
        flushed := true } := by
  unfold storeData flushR
  rw [if_neg (by tauto)]
  rw [if_pos (by simp; omega)]
  rw [if_pos (by simp)]
  rw [if_pos rfl]

/-- `submitSeq` distributes over list append. -/
theorem submitSeq_append (es₁ es₂ : List Entry) : ∀ (s : StoreState),
    submitSeq s (es₁ ++ es₂) =
      ((submitSeq (submitSeq s es₁).1 es₂).1,
       (submitSeq s es₁).2 ++ (submitSeq (submitSeq s es₁).1 es₂).2) := by
  induction es₁ with
  | nil => intro s; simp [submitSeq]
  | cons e t ih => intro s; simp [submitSeq, ih]

/-- Unfolding a one-entry submission sequence. -/
theorem submitSeq_singleton (s : StoreState) (e : Entry) :
    submitSeq s [e] =
      ((storeData s e.zoom e.idx e.data true).state,
       [(storeData s e.zoom e.idx e.data true).flushed]) := by
  simp [submitSeq]

/-- While the pending sequence stays within the threshold, buffered
submissions only accumulate entries: no flush runs, the table and the
counter are untouched. -/
theorem submitSeq_no_flush (es : List Entry) : ∀ (s : StoreState),
    s.batchMode ≠ 0 → s.params.maxBatchSize ≠ 0 →
    s.batch.length + es.length ≤ s.params.maxBatchSize →
    submitSeq s es =
      ({ s with batch := s.batch ++ es.map (fun e => entryQuery e.zoom e.idx e.data) },
       List.replicate es.length false) := by
  induction es with
  | nil => intro s _ _ _; simp [submitSeq]
  | cons e t ih =>
    intro s hm hx hlen
    simp only [submitSeq]
    rw [storeData_buffered_append s _ _ _ hm hx (by simp at hlen ⊢; omega)]
    rw [ih _ (by simpa using hm) (by simpa using hx) (by simp at hlen ⊢; omega)]
    simp [List.replicate_succ]

/-! ## Claim theorems -/

/-- C1: For every zoom `z` in `[minzoom, maxzoom]` (the window being
non-negative, as the `zoom`-typed config check guarantees), every valid
coordinate `(x, y)` for `z` and every non-empty payload `d`, `putTile`
applied in direct mode (the write applied) followed by `getTile` returns a
blob byte-for-byte identical to `d`, with the fixed headers. -/
theorem putTile_then_getTile_roundtrip (s : StoreState) (z : Int) (x y : Nat) (d : Bytes)
    (hmin : 0 ≤ s.params.minzoom)
    (hz1 : s.params.minzoom ≤ z) (hz2 : z ≤ s.params.maxzoom)
    (hx : x < 2 ^ z.toNat) (hy : y < 2 ^ z.toNat)
    (hd : d ≠ []) (hdirect : s.batchMode = 0) :
    getTile ((putTile s z x y (some d)).state) z x y = Except.ok (d, headers) := by
  have hq : entryQuery z (xyToIndex x y z.toNat : Int) (some d) =
      Query.set z (xyToIndex x y z.toNat : Int) d := by
    unfold entryQuery dataNonEmpty
    rw [if_pos (by simpa [List.length_pos] using hd)]
    simp
  rw [putTile_in_window_direct s z x y (some d) hz1 hz2 hdirect, hq]
  dsimp only
  rw [getTile_in_window
    { s with db := execQuery s.db (Query.set z (xyToIndex x y z.toNat : Int) d) }
    z x y hmin hz1 hz2 hx hy]
  dsimp only
  simp only [execQuery]
  rw [findRow_setRow]

/-- C1 witness: a concrete round trip through an empty direct-mode store. -/
theorem putTile_then_getTile_roundtrip_witness :
    (0 : Int) ≤ plainStore.params.minzoom ∧
    plainStore.params.minzoom ≤ 1 ∧ (1 : Int) ≤ plainStore.params.maxzoom ∧
    1 < 2 ^ (1 : Int).toNat ∧ 0 < 2 ^ (1 : Int).toNat ∧
    ([7] : Bytes) ≠ [] ∧ plainStore.batchMode = 0 ∧
    getTile ((putTile plainStore 1 1 0 (some [7])).state) 1 1 0 =
      Except.ok ([7], headers) :=
  ⟨by decide, by decide, by decide, by decide, by decide, by decide, by decide,
   putTile_then_getTile_roundtrip plainStore 1 1 0 [7] (by decide) (by decide) (by decide)
     (by decide) (by decide) (by decide) (by decide)⟩

/-- C9: For every store state (hence for every backing table: the check
precedes all I/O and the result cannot depend on the database), every zoom
`z` outside the configured window and every `(x, y)`, `getTile` fails with
the not-found signal, never a storage fault. -/
theorem getTile_outside_window_noTile (s : StoreState) (z : Int) (x y : Nat)
    (hout : z < s.params.minzoom ∨ z > s.params.maxzoom) :
    getTile s z x y = Except.error Err.noTile := by
  unfold getTile
  rw [if_pos hout]

/-- C9 witness: zoom 20 against a `[0, 14]` window. -/
theorem getTile_outside_window_noTile_witness :
    ((20 : Int) < plainStore.params.minzoom ∨ (20 : Int) > plainStore.params.maxzoom) ∧
    getTile plainStore 20 0 0 = Except.error Err.noTile :=
  ⟨by decide, getTile_outside_window_noTile plainStore 20 0 0 (by decide)⟩

/-- C8: For every in-window address, a `putTile` with an empty or absent
payload executes the `delete` statement (the table afterwards is exactly the
old table with the addressed row removed, so no empty blob is stored), and
the subsequent `getTile` for that address yields the not-found signal. -/
theorem putTile_empty_then_getTile_noTile (s : StoreState) (z : Int) (x y : Nat)
    (d : Option Bytes) (hd : d = none ∨ d = some [])
    (hmin : 0 ≤ s.params.minzoom)
    (hz1 : s.params.minzoom ≤ z) (hz2 : z ≤ s.params.maxzoom)
    (hx : x < 2 ^ z.toNat) (hy : y < 2 ^ z.toNat) (hdirect : s.batchMode = 0) :
    (putTile s z x y d).state.db = deleteRow s.db z (xyToIndex x y z.toNat : Int) ∧
    getTile ((putTile s z x y d).state) z x y = Except.error Err.noTile := by
  have hq : entryQuery z (xyToIndex x y z.toNat : Int) d =
      Query.delete z (xyToIndex x y z.toNat : Int) := by
    unfold entryQuery dataNonEmpty
    rcases hd with rfl | rfl <;> simp
  rw [putTile_in_window_direct s z x y d hz1 hz2 hdirect, hq]
  dsimp only
  refine ⟨rfl, ?_⟩
  rw [getTile_in_window
    { s with db := execQuery s.db (Query.delete z (xyToIndex x y z.toNat : Int)) }
    z x y hmin hz1 hz2 hx hy]
  dsimp only
  simp only [execQuery]
  rw [findRow_deleteRow]

/-- C8 witness: an empty write to `(1, 1, 0)` on a store already holding a
blob there, then the read finds nothing. -/
theorem putTile_empty_then_getTile_noTile_witness :
    ((some [] : Option Bytes) = none ∨ (some [] : Option Bytes) = some []) ∧
    (0 : Int) ≤ plainStore.params.minzoom ∧
    plainStore.params.minzoom ≤ 1 ∧ (1 : Int) ≤ plainStore.params.maxzoom ∧
    1 < 2 ^ (1 : Int).toNat ∧ 0 < 2 ^ (1 : Int).toNat ∧ plainStore.batchMode = 0 ∧
    ((putTile plainStore 1 1 0 (some [])).state.db =
      deleteRow plainStore.db 1 (xyToIndex 1 0 1 : Int) ∧
     getTile ((putTile plainStore 1 1 0 (some [])).state) 1 1 0 =
      Except.error Err.noTile) :=
  ⟨by decide, by decide, by decide, by decide, by decide, by decide, by decide,
   putTile_empty_then_getTile_noTile plainStore 1 1 0 (some []) (by decide) (by decide)
     (by decide) (by decide) (by decide) (by decide) (by decide)⟩

/-- C2 counterexample: on a store whose nesting counter is 2 and whose
pending sequence holds one entry, `stopWriting` decrements 2 → 1 — a
decrement with `n - 1 > 0` — yet the pending sequence IS flushed: the batch
is detached (left empty) and its entry submitted to the table.  The claim
states such a decrement performs no flush; the source (src lines 192-193)
calls `flushAsync()` unconditionally after every decrement. -/
theorem stopWriting_flush_above_zero_cex :
    nestedStore.batchMode = 2 ∧ nestedStore.batch = [Query.set 0 0 [1]] ∧
    (stopWriting nestedStore true).2.batchMode = 1 ∧
    (stopWriting nestedStore true).2.batch = [] ∧
    (stopWriting nestedStore true).2.db = [⟨0, 0, [1]⟩] := by decide

/-- C2 amended: `stopWriting` when the counter is 0 fails with the batch
protocol error and leaves the state unchanged; when the counter is `n > 0`
it decrements to `n - 1` and ALWAYS performs an implicit flush of the
pending sequence (submitting every pending entry and emptying the buffer),
regardless of whether `n - 1` is zero. -/
theorem stopWriting_amended (s : StoreState) :
    (s.batchMode = 0 →
      stopWriting s true =
        (Except.error (Err.protocolError (throwErrorMsg s.params.uri
           "stopWriting() called more times than startWriting()")), s)) ∧
    (0 < s.batchMode →
      (stopWriting s true).1 = Except.ok () ∧
      (stopWriting s true).2.batchMode = s.batchMode - 1 ∧
      (stopWriting s true).2.batch = [] ∧
      (stopWriting s true).2.db = s.batch.foldl execQuery s.db) := by
  constructor
  · intro h0
    unfold stopWriting
    rw [if_pos h0]
  · intro hpos
    unfold stopWriting flushR
    rw [if_neg (by omega)]
    dsimp only
    by_cases hb : s.batch.length > 0
    · rw [if_pos hb, if_pos rfl]
      exact ⟨rfl, rfl, rfl, rfl⟩
    · have hemp : s.batch = [] := List.length_eq_zero.mp (by omega)
      rw [if_neg hb]
      exact ⟨rfl, rfl, hemp, by simp [hemp]⟩

/-- C2 amended witness: the two-level store, where the flush happens on the
2 → 1 decrement. -/
theorem stopWriting_amended_witness :
    0 < nestedStore.batchMode ∧
    ((stopWriting nestedStore true).1 = Except.ok () ∧
     (stopWriting nestedStore true).2.batchMode = nestedStore.batchMode - 1 ∧
     (stopWriting nestedStore true).2.batch = [] ∧
     (stopWriting nestedStore true).2.db = nestedStore.batch.foldl execQuery nestedStore.db) :=
  ⟨by decide, (stopWriting_amended nestedStore).2 (by decide)⟩

/-- C10: For every counter value `n > 0` with a non-empty pending sequence,
a failing implicit flush inside `stopWriting` leaves the counter decremented
to `n - 1`, leaves the detached entries unrestored (the pending sequence is
empty afterwards), and propagates the flush error to the caller — no
rollback of the mode transition, no re-queue of the failed batch. -/
theorem stopWriting_failed_flush_keeps_decrement (s : StoreState)
    (hpos : 0 < s.batchMode) (hbatch : s.batch ≠ []) :
    stopWriting s false =
      (Except.error Err.storageFault,
       { s with batchMode := s.batchMode - 1, batch := [] }) := by
  unfold stopWriting flushR
  rw [if_neg (by omega)]
  dsimp only
  rw [if_pos (by simpa [List.length_pos] using hbatch)]
  rw [if_neg (by simp)]

/-- C10 witness: a one-level store with one pending delete whose flush
submission fails. -/
theorem stopWriting_failed_flush_keeps_decrement_witness :
    0 < failStore.batchMode ∧ failStore.batch ≠ [] ∧
    stopWriting failStore false =
      (Except.error Err.storageFault,
       { failStore with batchMode := failStore.batchMode - 1, batch := [] }) :=
  ⟨by decide, by decide,
   stopWriting_failed_flush_keeps_decrement failStore (by decide) (by decide)⟩

/-- C7: With `maxBatchSize = K ≥ 1` and buffering active, submitting `K + 1`
entries under one `startWriting` triggers exactly one automatic flush, at the
`(K+1)`-th submission (the per-submission flush flags are `K` times `false`
then one `true`); afterwards the pending sequence is empty and the table has
every entry applied exactly once, in order.  Moreover an explicit flush after
at most `K` submissions detaches and submits the entire pending sequence,
with no entry lost or duplicated. -/
theorem batch_flush_at_threshold (s : StoreState) (K : Nat) (es : List Entry)
    (hK : s.params.maxBatchSize = K) (hK0 : 0 < K)
    (hmode : 0 < s.batchMode) (hempty : s.batch = [])
    (hlen : es.length = K + 1) :
    (submitSeq s es).2 = List.replicate K false ++ [true] ∧
    (submitSeq s es).1.batch = [] ∧
    (submitSeq s es).1.db =
      (es.map (fun e => entryQuery e.zoom e.idx e.data)).foldl execQuery s.db ∧
    (∀ es' : List Entry, es'.length ≤ K →
      flushR (submitSeq s es').1 true =
        (Except.ok (),
         { s with
           batch := []
           db := (es'.map (fun e => entryQuery e.zoom e.idx e.data)).foldl
             execQuery s.db })) := by
  have hpre : ∀ (p : List Entry), p.length ≤ K →
      submitSeq s p =
        ({ s with batch := p.map (fun e => entryQuery e.zoom e.idx e.data) },
         List.replicate p.length false) := by
    intro p hp
    rw [submitSeq_no_flush p s (by omega) (by omega) (by rw [hempty, hK]; simpa using hp)]
    rw [hempty]
    simp
  obtain ⟨e, he⟩ := List.length_eq_one.mp
    (by rw [List.length_drop, hlen]; omega : (es.drop K).length = 1)
  have hsplit : es = es.take K ++ [e] := by rw [← he, List.take_append_drop]
  have htakelen : (es.take K).length = K := by rw [List.length_take]; omega
  have hflush := storeData_buffered_flush
    { s with batch := (es.take K).map (fun e => entryQuery e.zoom e.idx e.data) }
    e.zoom e.idx e.data (by simpa using (by omega : s.batchMode ≠ 0))
    (by simpa using (by omega : s.params.maxBatchSize ≠ 0))
    (by rw [List.length_map, htakelen, hK])
  have hall : submitSeq s es =
      ({ s with
         batch := []
         db := ((es.take K).map (fun e => entryQuery e.zoom e.idx e.data) ++
           [entryQuery e.zoom e.idx e.data]).foldl execQuery s.db },
       List.replicate K false ++ [true]) := by
    rw [hsplit, submitSeq_append, hpre (es.take K) (le_of_eq htakelen)]
    dsimp only
    rw [submitSeq_singleton, hflush]
    dsimp only
    rw [htakelen, List.take_append_of_le_length (le_of_eq htakelen.symm), List.take_take]
    simp
  have hmaps : es.map (fun e => entryQuery e.zoom e.idx e.data) =
      (es.take K).map (fun e => entryQuery e.zoom e.idx e.data) ++
        [entryQuery e.zoom e.idx e.data] := by
    conv_lhs => rw [hsplit]
    rw [List.map_append]
    rfl
  refine ⟨?_, ?_, ?_, ?_⟩
  · rw [hall]
  · rw [hall]
  · rw [hall, hmaps]
  · intro p hp
    rw [hpre p hp]
    dsimp only
    unfold flushR
    by_cases hne : (p.map (fun e => entryQuery e.zoom e.idx e.data)).length > 0
    · rw [if_pos hne, if_pos rfl]
    · rw [if_neg hne]
      have : p.map (fun e => entryQuery e.zoom e.idx e.data) = [] :=
        List.length_eq_zero.mp (by omega)
      rw [this]
      simp

/-- C7 witness: `K = 2`, three buffered writes; flags `[false, false, true]`,
all three applied, and the explicit-flush clause instantiated at a two-entry
prefix. -/
theorem batch_flush_at_threshold_witness :
    batchStore.params.maxBatchSize = 2 ∧ 0 < 2 ∧ 0 < batchStore.batchMode ∧
    batchStore.batch = [] ∧
    ([⟨1, 0, some [1]⟩, ⟨1, 1, some [2]⟩, ⟨1, 2, some [3]⟩] : List Entry).length = 2 + 1 ∧
    (submitSeq batchStore [⟨1, 0, some [1]⟩, ⟨1, 1, some [2]⟩, ⟨1, 2, some [3]⟩]).2 =
      List.replicate 2 false ++ [true] ∧
    (submitSeq batchStore [⟨1, 0, some [1]⟩, ⟨1, 1, some [2]⟩, ⟨1, 2, some [3]⟩]).1.batch
      = [] ∧
    (submitSeq batchStore [⟨1, 0, some [1]⟩, ⟨1, 1, some [2]⟩, ⟨1, 2, some [3]⟩]).1.db =
      (([⟨1, 0, some [1]⟩, ⟨1, 1, some [2]⟩, ⟨1, 2, some [3]⟩] : List Entry).map
        (fun e => entryQuery e.zoom e.idx e.data)).foldl execQuery batchStore.db ∧
    flushR (submitSeq batchStore [⟨1, 0, some [1]⟩, ⟨1, 1, some [2]⟩]).1 true =
      (Except.ok (),
       { batchStore with
         batch := []
         db := (([⟨1, 0, some [1]⟩, ⟨1, 1, some [2]⟩] : List Entry).map
           (fun e => entryQuery e.zoom e.idx e.data)).foldl execQuery batchStore.db }) :=
  ⟨by decide, by decide, by decide, by decide, by decide,
   (batch_flush_at_threshold batchStore 2
     [⟨1, 0, some [1]⟩, ⟨1, 1, some [2]⟩, ⟨1, 2, some [3]⟩]
     (by decide) (by decide) (by decide) (by decide) (by decide)).1,
   (batch_flush_at_threshold batchStore 2
     [⟨1, 0, some [1]⟩, ⟨1, 1, some [2]⟩, ⟨1, 2, some [3]⟩]
     (by decide) (by decide) (by decide) (by decide) (by decide)).2.1,
   (batch_flush_at_threshold batchStore 2
     [⟨1, 0, some [1]⟩, ⟨1, 1, some [2]⟩, ⟨1, 2, some [3]⟩]
     (by decide) (by decide) (by decide) (by decide) (by decide)).2.2.1,
   (batch_flush_at_threshold batchStore 2
     [⟨1, 0, some [1]⟩, ⟨1, 1, some [2]⟩, ⟨1, 2, some [3]⟩]
     (by decide) (by decide) (by decide) (by decide) (by decide)).2.2.2
     [⟨1, 0, some [1]⟩, ⟨1, 1, some [2]⟩] (by decide)⟩

/-- C3: For every range query, a fault of the underlying cursor after `k`
delivered records is delivered to the consumer exactly as the rejection of
the `(k+1)`-th `next()` call: the pull-result sequence is the `k` converted
records followed by the single error outcome.  Nothing after the fault is
pulled (the fault never escapes the pull protocol), and the `k` records
already delivered are neither retracted nor re-delivered. -/
theorem stream_fault_delivered_on_next (o : QueryOptions) (items : List StreamValue)
    (e : String) (rest : List StreamEvent) :
    nextResults o (items.map StreamEvent.item ++ StreamEvent.fault e :: rest) =
      items.map (fun v => Except.ok (some (converter o v))) ++ [Except.error e] := by
  induction items with
  | nil => simp [nextResults]
  | cons v t ih => simp [nextResults, ih]

set_option maxRecDepth 10000 in
/-- C4: the claim fails on the code.  `this.throwError` (src lines 22-24)
appends `JSON.stringify(uri)` of the RAW constructor argument; only the
parsed `_params` copy had its password deleted (src lines 61-62, whose very
comment announces the intent "make sure not to expose it in the error
reporting").  Evaluating the embedded code: a store built from a
connection-string uri carrying `password=secret`, asked to `putTile` at zoom
20 outside its `[0, 14]` window, rejects with a configuration error whose
message contains the configured password. -/
theorem putTile_error_contains_password :
    (putTile leakStore 20 0 0 (some [1])).result =
      Except.error (Err.configError (throwErrorMsg leakStore.params.uri
        "This PostgresStore source cannot save zoom 20, because its configured for zooms 0..14")) ∧
    strContains (throwErrorMsg leakStore.params.uri
      "This PostgresStore source cannot save zoom 20, because its configured for zooms 0..14")
      "secret" = true := by decide

/-- C5: the claim fails on the code.  The size-only point read looks up
`self.queries.getSize` (src line 219), but the key defined at src line 90 is
`getTileSize`; the lookup therefore yields `undefined`, the database client
rejects the undefined statement, and the read faults instead of returning
the stored blob's byte length (here 2, for the 2-byte tile stored at
`(0, 0)`). -/
theorem sizeOnly_read_faults :
    queriesLookup "getSize" = none ∧
    queriesLookup "getTileSize" =
      some "SELECT length(tile) AS len FROM $1~ WHERE zoom = $2 AND idx = $3;" ∧
    findRow sizeDb 0 0 = some ⟨0, 0, [9, 9]⟩ ∧
    queryTileAsync "u" sizeDb sizeOnlyOpts = Except.error Err.storageFault := by decide

/-- C6 counterexample: the range scan carries no ORDER BY and normalizes a
supplied `idxBefore = 0` away by truthiness (`options.idxBefore || maxEnd`,
src line 266).  On a table holding zoom-3 rows with idx 15 before idx 12:
the query over `[10, 20)` yields the records in table order `15, 12` — not
ascending — and the query over the empty window `[0, 0)`, which the claim
(with `a = b = 0 ≤ 4^Z`) requires to yield nothing, yields both records. -/
theorem query_range_cex :
    queryResults "u" rangeOpts unorderedDb =
      Except.ok [{ zoom := 3, idx := 15 }, { zoom := 3, idx := 12 }] ∧
    ¬ List.Sorted (fun a b => a.idx ≤ b.idx)
        [({ zoom := 3, idx := 15 } : QueryResult), { zoom := 3, idx := 12 }] ∧
    queryResults "u" emptyRangeOpts unorderedDb =
      Except.ok [{ zoom := 3, idx := 15 }, { zoom := 3, idx := 12 }] := by decide

/-- Pointwise agreement of the built WHERE clause with the plain
`[a, b)`-window predicate, on rows respecting the address-space invariant. -/
theorem rangeCond_eq_inRange (Z : Nat) (a b : Int) (r : Row)
    (ha : 0 ≤ a) (hbz : b ≤ (4 : Int) ^ Z)
    (hr : r.zoom = (Z : Int) → 0 ≤ r.idx ∧ r.idx < (4 : Int) ^ Z) :
    rangeCond (Z : Int) none none (a : ℚ) (b : ℚ) (((4 : ℤ) ^ Z : ℤ) : ℚ) r =
      inRange (Z : Int) a b r := by
  unfold rangeCond inRange
  by_cases hzoom : (r.zoom == (Z : Int)) = true
  · have hz : r.zoom = (Z : Int) := by simpa using hzoom
    obtain ⟨h0, h4⟩ := hr hz
    have e1 : (if (a : ℚ) > 0 then decide ((r.idx : ℚ) ≥ (a : ℚ)) else true) =
        decide (a ≤ r.idx) := by
      by_cases hapos : (0 : ℚ) < (a : ℚ)
      · rw [if_pos hapos]
        exact decide_eq_decide.mpr Int.cast_le
      · rw [if_neg hapos]
        have ha0 : a = 0 := by
          have : ¬ (0 : Int) < a := by exact_mod_cast hapos
          omega
        rw [ha0]
        exact (decide_eq_true h0).symm
    have e2 : (if (b : ℚ) < (((4 : ℤ) ^ Z : ℤ) : ℚ) then decide ((r.idx : ℚ) < (b : ℚ))
        else true) = decide (r.idx < b) := by
      by_cases hblt : (b : ℚ) < (((4 : ℤ) ^ Z : ℤ) : ℚ)
      · rw [if_pos hblt]
        exact decide_eq_decide.mpr Int.cast_lt
      · rw [if_neg hblt]
        have hbe : b = (4 : Int) ^ Z :=
          le_antisymm hbz (by exact_mod_cast not_lt.mp hblt)
        rw [hbe]
        exact (decide_eq_true h4).symm
    simp only [hzoom, Bool.true_and, e1, e2]
  · simp only [Bool.not_eq_true] at hzoom
    simp [hzoom]

/-- C6 amended: for `0 ≤ a ≤ b ≤ 4^Z` with `b ≥ 1` (a supplied `idxBefore`
of `0` is falsy and treated as absent by the source), over a table whose
zoom-`Z` rows respect the address-space invariant `0 ≤ idx < 4^Z`, the query
yields exactly the stored records with idx in `[a, b)` at zoom `Z` — each
one exactly once, converted, and in the backing table's row order (the scan
issues no ORDER BY, so ascending idx order is not guaranteed). -/
theorem query_range_exact_table_order (Z : Nat) (a b : Int) (uri : String) (db : Table)
    (ha : 0 ≤ a) (hb : 1 ≤ b) (hab : a ≤ b) (hbz : b ≤ (4 : Int) ^ Z)
    (hwf : ∀ r ∈ db, r.zoom = (Z : Int) → 0 ≤ r.idx ∧ r.idx < (4 : Int) ^ Z) :
    queryResults uri { zoom := (Z : Int), idxFrom := some a, idxBefore := some b } db =
      Except.ok ((db.filter (inRange (Z : Int) a b)).map
        (fun r => converter { zoom := (Z : Int), idxFrom := some a, idxBefore := some b }
          ⟨r.idx, r.tile⟩)) := by
  have hmax : jsPow4 ((Z : Nat) : Int) = (((4 : ℤ) ^ Z : ℤ) : ℚ) := by
    rw [jsPow4, if_pos (Int.natCast_nonneg Z)]
    rw [Int.toNat_natCast]
  unfold queryResults queryRows
  dsimp only
  simp only [smallerThanBad]
  rw [if_neg (by simp)]
  rw [hmax]
  rw [if_neg (by omega : ¬ b = 0)]
  rw [if_neg (by
    push_neg
    constructor
    · exact_mod_cast hab
    · exact_mod_cast hbz)]
  have hfilter : db.filter
      (rangeCond (Z : Int) none none (a : ℚ) (b : ℚ) (((4 : ℤ) ^ Z : ℤ) : ℚ)) =
      db.filter (inRange (Z : Int) a b) :=
    List.filter_congr (fun r hr => rangeCond_eq_inRange Z a b r ha hbz (hwf r hr))
  rw [hfilter]
  rfl

/-- C6 amended witness: `[10, 20)` at zoom 3 over the two-row table returns
exactly its zoom-3 rows with idx in `[10, 20)`, in table order. -/
theorem query_range_exact_table_order_witness :
    (0 : Int) ≤ 10 ∧ (1 : Int) ≤ 20 ∧ (10 : Int) ≤ 20 ∧ (20 : Int) ≤ (4 : Int) ^ 3 ∧
    queryResults "w" { zoom := ((3 : Nat) : Int), idxFrom := some 10, idxBefore := some 20 }
        unorderedDb =
      Except.ok ((unorderedDb.filter (inRange ((3 : Nat) : Int) 10 20)).map
        (fun r => converter
          { zoom := ((3 : Nat) : Int), idxFrom := some 10, idxBefore := some 20 }
          ⟨r.idx, r.tile⟩)) :=
  ⟨by decide, by decide, by decide, by decide,
   query_range_exact_table_order 3 10 20 "w" unorderedDb (by decide) (by decide)
     (by decide) (by decide) (by decide)⟩

end PostgresStore
